import Mathlib

/-! # The webcam detection loop of `App.jsx`

A shallow embedding of the React component `App` (`src/App.jsx`; the variant
`src/src/App.jsx` has the same `pushHistory`, `tick`, `start` and `stop`, and
only leaves `classes` out of the request body).

* Part 1 embeds `pushHistory`: the tally object, the summary string and the
  bounded history list.
* Part 2 embeds the controller (`startWebcam`, `stopWebcam`,
  `grabFrameDataURL`, `tick`, `start`, `stop`) as a transition system whose
  events are the browser callbacks: clicks, promise settlements and timers.
-/

namespace App

/-! ## Part 1: `pushHistory` -/

/-- One element of `res.data.detections`; only its `class` field is read. -/
structure Detection where
  «class» : String
  deriving DecidableEq, Repr

/-- A JavaScript value as it occurs when `tally[d.class]` is read or written:
a number, a string, or an object (function) known by its string conversion. -/
inductive JSVal where
  | num (n : Nat)
  | str (s : String)
  | obj (text : String)
  deriving DecidableEq, Repr

/-- The own properties of the object literal `{}` held in `tally`, in creation
order. -/
abbrev JSObject := List (String × JSVal)

/-- The method names every plain object inherits from `Object.prototype`. -/
def protoMethods : List String :=
  ["constructor", "__defineGetter__", "__defineSetter__", "hasOwnProperty",
   "__lookupGetter__", "__lookupSetter__", "isPrototypeOf",
   "propertyIsEnumerable", "toString", "valueOf", "toLocaleString"]

/-- The names a fresh `{}` answers to without having them as own properties. -/
def protoKeys : List String := "__proto__" :: protoMethods

/-- String conversion of the built-in function named `name`. -/
def nativeText (name : String) : String :=
  "function " ++ name ++ "() \x7b [native code] \x7d"

/-- What `Object.prototype` answers for the property `k`: itself for
`__proto__`, the function `Object` for `constructor`, else the method named
`k`. -/
def protoGet (k : String) : Option JSVal :=
  if k = "__proto__" then some (JSVal.obj "[object Object]")
  else if k = "constructor" then some (JSVal.obj (nativeText "Object"))
  else if k ∈ protoMethods then some (JSVal.obj (nativeText k))
  else none

/-- The own property `k` of `o`, if there is one. -/
def ownGet : JSObject → String → Option JSVal
  | [], _ => none
  | (k', v) :: o, k => if k' = k then some v else ownGet o k

/-- The read `tally[k]`: own property first, then the prototype; `none` is
`undefined`. -/
def getProp (o : JSObject) (k : String) : Option JSVal :=
  match ownGet o k with
  | some v => some v
  | none => protoGet k

/-- Overwrite the own property `k`, keeping its place, or create it last. -/
def ownSet : JSObject → String → JSVal → JSObject
  | [], k, v => [(k, v)]
  | (k', v') :: o, k, v => if k' = k then (k', v) :: o else (k', v') :: ownSet o k v

/-- The write `tally[k] = v` of a number or string `v`. The name `__proto__`
is an accessor of `Object.prototype` whose setter ignores a primitive. -/
def setProp (o : JSObject) (k : String) (v : JSVal) : JSObject :=
  if k = "__proto__" then o else ownSet o k v

/-- The expression `x || 0`: `undefined`, `0` and `""` are falsy. -/
def orZero : Option JSVal → JSVal
  | none => JSVal.num 0
  | some (JSVal.num n) => JSVal.num n
  | some (JSVal.str s) => if s = "" then JSVal.num 0 else JSVal.str s
  | some (JSVal.obj t) => JSVal.obj t

/-- The expression `x + 1`: addition on a number, concatenation otherwise. -/
def plusOne : JSVal → JSVal
  | JSVal.num n => JSVal.num (n + 1)
  | JSVal.str s => JSVal.str (s ++ "1")
  | JSVal.obj t => JSVal.str (t ++ "1")

/-- The body of the `forEach` callback:
`tally[d.class] = (tally[d.class] || 0) + 1`. -/
def tallyStep (tally : JSObject) (d : Detection) : JSObject :=
  setProp tally d.«class» (plusOne (orZero (getProp tally d.«class»)))

/-- The loop `det.forEach(...)` run on the tally built so far. -/
def tallyFrom (tally : JSObject) (det : List Detection) : JSObject :=
  det.foldl tallyStep tally

/-- The tally of a detection list: `const tally = {}; det.forEach(...)`. -/
def tallyOf (det : List Detection) : JSObject :=
  tallyFrom [] det

/-- The number a list of decimal digits denotes. -/
def digitsValue (cs : List Char) : Nat :=
  cs.foldl (fun n c => 10 * n + (c.toNat - 48)) 0

/-- Whether a property name is an array index: a canonical decimal numeral
below `2^32 - 1`. Such keys are enumerated first, in numeric order. -/
def isArrayIndex (k : String) : Bool :=
  match k.data with
  | [] => false
  | c :: cs =>
    (c :: cs).all (fun x => decide (48 ≤ x.toNat ∧ x.toNat ≤ 57)) &&
    (decide (c ≠ '0') || cs.isEmpty) &&
    decide ((c :: cs).length ≤ 10) &&
    decide (digitsValue (c :: cs) < 4294967295)

/-- Insert an index-keyed property before the first one with a larger index. -/
def insertByIndex (p : String × JSVal) : JSObject → JSObject
  | [] => [p]
  | q :: o =>
    if digitsValue p.1.data < digitsValue q.1.data then p :: q :: o
    else q :: insertByIndex p o

/-- The pairs `Object.entries(tally)` yields: array-index keys in ascending
numeric order, then the other keys in creation order. -/
def entries (o : JSObject) : JSObject :=
  (o.filter (fun p => isArrayIndex p.1)).foldr insertByIndex [] ++
    o.filter (fun p => !isArrayIndex p.1)

/-- The template conversion of a value inside the summary. -/
def valText : JSVal → String
  | JSVal.num n => toString n
  | JSVal.str s => s
  | JSVal.obj t => t

/-- The summary string:
`Object.entries(tally).map(([k, v]) => k + ":" + v).join(", ")`. -/
def summaryOf (tally : JSObject) : String :=
  ", ".intercalate ((entries tally).map (fun p => p.1 ++ ":" ++ valText p.2))

/-- One element of the `history` state. -/
structure HistoryEntry where
  time : String
  summary : String
  count : Nat
  deriving DecidableEq, Repr

/-- The entry `pushHistory` builds for `det`; `now` stands for
`new Date().toLocaleTimeString()`. -/
def mkEntry (now : String) (det : List Detection) : HistoryEntry :=
  { time := now, summary := summaryOf (tallyOf det), count := det.length }

/-- The state update of `pushHistory`:
`h => [entry, ...h].slice(0, 25)`. -/
def pushHistory (now : String) (det : List Detection) (h : List HistoryEntry) :
    List HistoryEntry :=
  (mkEntry now det :: h).take 25

/-- The history after recording the lists of `rs` in order, each with the
clock reading it was recorded at. -/
def recordAll (rs : List (String × List Detection)) (h : List HistoryEntry) :
    List HistoryEntry :=
  rs.foldl (fun acc r => pushHistory r.1 r.2 acc) h

/-- The number of detections of `det` whose class is `k`. -/
def occurrences (k : String) (det : List Detection) : Nat :=
  (det.filter (fun d => d.«class» = k)).length

/-- The own property that stands for a count: absent for zero. -/
def asCount (n : Nat) : Option JSVal :=
  if n = 0 then none else some (JSVal.num n)

/-! ## Part 2: the controller -/

/-- The state variables a render hands to the handlers it creates. `tick`
reads `sending`, `threshold` and `selected` from the render that created it,
and `setTimeout(tick, 120)` re-arms that same function. -/
structure Closure where
  sending : Bool
  threshold : Nat
  selected : List String
  deriving DecidableEq, Repr

/-- A pending `setTimeout(tick, 120)`: its id, the time it is due, and the
`tick` it will call. -/
structure Timer where
  id : Nat
  due : Nat
  cl : Closure
  deriving DecidableEq, Repr

/-- The body of `POST /detect_frame`. -/
structure FrameBody where
  image_base64 : String
  threshold : Nat
  classes : Option (List String)
  deriving DecidableEq, Repr

/-- An unsettled `axios.post` of `tick`, with the `tick` that awaits it. -/
structure Request where
  id : Nat
  cl : Closure
  body : FrameBody
  deriving DecidableEq, Repr

/-- Where a suspended call of `start` waits. -/
inductive Phase where
  | acquiring
  | playing
  deriving DecidableEq, Repr

/-- A call of `start` suspended inside `await startWebcam()`. -/
structure StartCall where
  id : Nat
  cl : Closure
  phase : Phase
  deriving DecidableEq, Repr

/-- The video element behind `videoRef.current`. -/
structure Video where
  srcObject : Option Nat
  deriving DecidableEq, Repr

/-- What the video element offers when `grabFrameDataURL` runs: its
`readyState`, and the string `toDataURL` yields for the frame drawn. -/
structure Frame where
  readyState : Nat
  dataURL : String
  deriving DecidableEq, Repr

/-- The component state, the refs, and the callbacks the browser still owes.
`threshold` is in hundredths. -/
structure State where
  clock : Nat
  running : Bool
  threshold : Nat
  selected : List String
  annotatedSrc : Option String
  history : List HistoryEntry
  sending : Bool
  loopRef : Option Nat
  video : Option Video
  canvas : Bool
  liveStreams : List Nat
  timers : List Timer
  requests : List Request
  starts : List StartCall
  uploads : List Nat
  nextId : Nat
  deriving DecidableEq, Repr

/-- The component after mounting: the `useState` and `useRef` initial values,
with the video and canvas elements in place. -/
def init : State :=
  { clock := 0, running := false, threshold := 50,
    selected := ["person", "car", "dog"], annotatedSrc := none, history := [],
    sending := false, loopRef := none, video := some { srcObject := none },
    canvas := true, liveStreams := [], timers := [], requests := [],
    starts := [], uploads := [], nextId := 1 }

/-- The values the handlers of the current render close over. React has
re-rendered between two events, so a click runs a handler that saw the
current state; a `tick` re-armed by a timer keeps the values it was created
with. -/
def closureOf (s : State) : Closure :=
  { sending := s.sending, threshold := s.threshold, selected := s.selected }

/-- The first element whose key is `id`. -/
def findBy {α : Type} (key : α → Nat) (id : Nat) : List α → Option α
  | [] => none
  | a :: as => if key a = id then some a else findBy key id as

/-- The list without its first element whose key is `id`. -/
def dropBy {α : Type} (key : α → Nat) (id : Nat) : List α → List α
  | [] => []
  | a :: as => if key a = id then as else a :: dropBy key id as

/-- The statement `loopRef.current = setTimeout(tick, 120)` for the `tick` of
closure `cl`. -/
def setTimeout (cl : Closure) (s : State) : State :=
  { s with
    loopRef := some s.nextId
    timers := s.timers ++ [{ id := s.nextId, due := s.clock + 120, cl := cl }]
    nextId := s.nextId + 1 }

/-- The call `clearTimeout(loopRef.current)`. -/
def clearTimeout (s : State) : State :=
  match s.loopRef with
  | none => s
  | some id => { s with timers := dropBy Timer.id id s.timers }

/-- The stream of `videoRef.current.srcObject`, if one is attached. -/
def attachedStream (s : State) : Option Nat :=
  match s.video with
  | none => none
  | some v => v.srcObject

/-- The function `stopWebcam`. -/
def stopWebcam (s : State) : State :=
  match s.video with
  | none => s
  | some v =>
    match v.srcObject with
    | none => s
    | some stream =>
      { s with
        liveStreams := s.liveStreams.filter (fun x => x ≠ stream)
        video := some { srcObject := none } }

/-- The function `grabFrameDataURL`. -/
def grabFrameDataURL (s : State) (f : Frame) : Option String :=
  match s.video with
  | none => none
  | some _ => if !s.canvas || decide (f.readyState < 2) then none else some f.dataURL

/-- The object `tick` posts to `/detect_frame`. -/
def frameBody (cl : Closure) (dataURL : String) : FrameBody :=
  { image_base64 := dataURL, threshold := cl.threshold,
    classes := if cl.selected.length = 0 then none else some cl.selected }

/-- The function `tick`, up to its `await`: either it re-arms the timer and
returns, or it sets `sending` and posts the frame. -/
def tick (cl : Closure) (f : Frame) (s : State) : State :=
  if cl.sending then setTimeout cl s
  else
    match grabFrameDataURL s f with
    | none => setTimeout cl s
    | some dataURL =>
      if dataURL = "" then setTimeout cl s
      else
        { s with
          sending := true
          requests := s.requests ++
            [{ id := s.nextId, cl := cl, body := frameBody cl dataURL }]
          nextId := s.nextId + 1 }

/-- The rest of `tick` when the post resolves: the `try` body after the
`await`, then the `finally` block. -/
def tickResolved (r : Request) (image : String) (detections : Option (List Detection))
    (now : String) (s : State) : State :=
  setTimeout r.cl
    { s with
      requests := dropBy Request.id r.id s.requests
      annotatedSrc := some image
      history := pushHistory now (detections.getD []) s.history
      sending := false }

/-- The rest of `tick` when the post rejects: the `catch` block, then the
`finally` block. -/
def tickRejected (r : Request) (s : State) : State :=
  setTimeout r.cl
    { s with
      requests := dropBy Request.id r.id s.requests
      sending := false }

/-- The function `start`, up to `getUserMedia` inside `startWebcam`. -/
def start (s : State) : State :=
  { s with
    starts := s.starts ++ [{ id := s.nextId, cl := closureOf s, phase := Phase.acquiring }]
    nextId := s.nextId + 1 }

/-- The tail of `start` after `await startWebcam()`:
`setRunning(true); tick()`. -/
def startTail (c : StartCall) (f : Frame) (s : State) : State :=
  tick c.cl f { s with starts := dropBy StartCall.id c.id s.starts, running := true }

/-- The call `start` resumed when `getUserMedia` resolves with a new stream:
with a video element the stream is attached and `play()` awaited, without one
`startWebcam` is done. -/
def startGranted (c : StartCall) (f : Frame) (s : State) : State :=
  match s.video with
  | some _ =>
    { s with
      liveStreams := s.liveStreams ++ [s.nextId]
      video := some { srcObject := some s.nextId }
      starts := (dropBy StartCall.id c.id s.starts) ++ [{ c with phase := Phase.playing }]
      nextId := s.nextId + 1 }
  | none =>
    startTail c f { s with liveStreams := s.liveStreams ++ [s.nextId], nextId := s.nextId + 1 }

/-- The call `start` ended by a rejection inside `startWebcam`. -/
def startThrown (c : StartCall) (s : State) : State :=
  { s with starts := dropBy StartCall.id c.id s.starts }

/-- The function `stop`. -/
def stop (s : State) : State :=
  stopWebcam (clearTimeout { s with running := false })

/-- The function `toggleClass`. -/
def toggleClass (cls : String) (s : State) : State :=
  { s with
    selected := if cls ∈ s.selected then s.selected.filter (fun c => c ≠ cls)
                else s.selected ++ [cls] }

/-- The function `onFileChange`, up to its `await`. -/
def onFileChange (file : Option String) (s : State) : State :=
  match file with
  | none => s
  | some _ => { s with uploads := s.uploads ++ [s.nextId], nextId := s.nextId + 1 }

/-- The rest of `onFileChange` when the upload resolves. -/
def uploadResolved (id : Nat) (image : String) (detections : Option (List Detection))
    (now : String) (s : State) : State :=
  { s with
    uploads := dropBy (fun x => x) id s.uploads
    annotatedSrc := some image
    history := pushHistory now (detections.getD []) s.history }

/-- The rest of `onFileChange` when the upload rejects. -/
def uploadRejected (id : Nat) (s : State) : State :=
  { s with uploads := dropBy (fun x => x) id s.uploads }

/-- What can happen to the component: time passing, user input, and the
browser resuming a suspended handler. -/
inductive Event where
  | elapse (dt : Nat)
  | clickStart
  | mediaGranted (call : Nat) (f : Frame)
  | mediaDenied (call : Nat)
  | playOk (call : Nat) (f : Frame)
  | playFail (call : Nat)
  | clickStop
  | timeout (timer : Nat) (f : Frame)
  | detectOk (req : Nat) (image : String) (detections : Option (List Detection)) (now : String)
  | detectErr (req : Nat)
  | setThreshold (v : Nat)
  | clickClass (cls : String)
  | fileChange (file : Option String)
  | uploadOk (req : Nat) (image : String) (detections : Option (List Detection)) (now : String)
  | uploadErr (req : Nat)
  deriving DecidableEq, Repr

/-- Whether the suspended `start` call `id` waits in phase `ph`. -/
def startIn (s : State) (id : Nat) (ph : Phase) : Bool :=
  match findBy StartCall.id id s.starts with
  | some c => decide (c.phase = ph)
  | none => false

/-- Whether the browser can deliver the event: a settlement needs its pending
promise, a timeout needs its timer to be pending and due. -/
def enabled (s : State) : Event → Bool
  | Event.mediaGranted id _ => startIn s id Phase.acquiring
  | Event.mediaDenied id => startIn s id Phase.acquiring
  | Event.playOk id _ => startIn s id Phase.playing
  | Event.playFail id => startIn s id Phase.playing
  | Event.timeout id _ =>
    match findBy Timer.id id s.timers with
    | some t => decide (t.due ≤ s.clock)
    | none => false
  | Event.detectOk id _ _ _ => (findBy Request.id id s.requests).isSome
  | Event.detectErr id => (findBy Request.id id s.requests).isSome
  | Event.uploadOk id _ _ _ => (findBy (fun x => x) id s.uploads).isSome
  | Event.uploadErr id => (findBy (fun x => x) id s.uploads).isSome
  | _ => true

/-- The state after an event, meant for events that are `enabled`: `runFrom`
asks for that before it takes a step. -/
def step (s : State) : Event → State
  | Event.elapse dt => { s with clock := s.clock + dt }
  | Event.clickStart => start s
  | Event.mediaGranted id f =>
    match findBy StartCall.id id s.starts with
    | some c => startGranted c f s
    | none => s
  | Event.mediaDenied id =>
    match findBy StartCall.id id s.starts with
    | some c => startThrown c s
    | none => s
  | Event.playOk id f =>
    match findBy StartCall.id id s.starts with
    | some c => startTail c f s
    | none => s
  | Event.playFail id =>
    match findBy StartCall.id id s.starts with
    | some c => startThrown c s
    | none => s
  | Event.clickStop => stop s
  | Event.timeout id f =>
    match findBy Timer.id id s.timers with
    | some t => tick t.cl f { s with timers := dropBy Timer.id id s.timers }
    | none => s
  | Event.detectOk id image detections now =>
    match findBy Request.id id s.requests with
    | some r => tickResolved r image detections now s
    | none => s
  | Event.detectErr id =>
    match findBy Request.id id s.requests with
    | some r => tickRejected r s
    | none => s
  | Event.setThreshold v => { s with threshold := v }
  | Event.clickClass cls => toggleClass cls s
  | Event.fileChange file => onFileChange file s
  | Event.uploadOk id image detections now => uploadResolved id image detections now s
  | Event.uploadErr id => uploadRejected id s

/-- The buttons the render shows: `Start Webcam` while `running` is false,
`Stop Webcam` while it is true. -/
def shown (s : State) : Event → Bool
  | Event.clickStart => !s.running
  | Event.clickStop => s.running
  | _ => true

/-- A user who does not press `Start Webcam` again while a call of `start`
is still suspended. -/
def patient (s : State) : Event → Bool
  | Event.clickStart => s.starts.isEmpty
  | _ => true

/-- A video element offers a frame (`readyState` at least 2) only while a
stream is attached to it. -/
def plausibleFrame (s : State) (f : Frame) : Bool :=
  decide (f.readyState < 2) || (attachedStream s).isSome

/-- Frames handed to `tick` are ones the video element can offer. The frame
of `mediaGranted` is read only when there is no video element. -/
def framesReal (s : State) : Event → Bool
  | Event.playOk _ f => plausibleFrame s f
  | Event.timeout _ f => plausibleFrame s f
  | _ => true

/-- Playback does not fail. -/
def playSucceeds : Event → Bool
  | Event.playFail _ => false
  | _ => true

/-- The strictest reading of what can happen: deliverable events, only the
shown button, a patient user, and plausible frames. -/
def strict (s : State) (e : Event) : Bool :=
  enabled s e && shown s e && patient s e && framesReal s e

/-- Run a sequence of events from `s`; `none` when one of them is not allowed
by `g` in the state it meets. -/
def runFrom (g : State → Event → Bool) : State → List Event → Option State
  | s, [] => some s
  | s, e :: es => if g s e then runFrom g (step s e) es else none

/-- The number of `/detect_frame` requests posted and not yet settled. -/
def inFlight (s : State) : Nat := s.requests.length

/-- The events a well-behaved session is made of: deliverable events, only
the shown button, a patient user, and playback that succeeds. -/
def orderly (s : State) (e : Event) : Bool :=
  enabled s e && shown s e && patient s e && playSucceeds e

/-- Whether a call of `start` is suspended at `await videoRef.current.play()`. -/
def awaitingPlay (s : State) : Prop :=
  ∃ c ∈ s.starts, c.phase = Phase.playing

/-- What an orderly session keeps true: the video element exists, at most
one call of `start` is suspended and none while running, and the stream is
attached exactly while running or awaiting playback. -/
structure Tidy (s : State) : Prop where
  video : s.video.isSome = true
  one : s.starts.length ≤ 1
  idle : s.running = true → s.starts = []
  cam : (attachedStream s).isSome = true ↔ (s.running = true ∨ awaitingPlay s)

/-- The events of consecutive rounds of one timer chain: 120 ms pass, the
pending timer `tid` fires with the next frame of the list, and the timer it
re-arms (whose id is `next`) is the one to fire in the following round. -/
def roundEvents : Nat → Nat → List Frame → List Event
  | _, _, [] => []
  | tid, next, f :: fs =>
    Event.elapse 120 :: Event.timeout tid f :: roundEvents next (next + 1) fs

/-- A frame of a playing video. -/
def liveFrame : Frame :=
  { readyState := 4, dataURL := "data:image/jpeg;base64,/9j/4AAQSkZJRg" }

/-- What a video element without a stream offers: `HAVE_NOTHING`. -/
def noFrame : Frame :=
  { readyState := 0, dataURL := "data:," }

/-- A session up to the first request: `Start Webcam` is pressed, the camera
is granted after 800 ms, playback starts 200 ms later and the first `tick`
posts a frame at time 1000. -/
def firstRound : List Event :=
  [Event.clickStart, Event.elapse 800, Event.mediaGranted 1 liveFrame,
   Event.elapse 200, Event.playOk 1 liveFrame]

/-- The session continued: `Stop Webcam` is pressed 50 ms into the request. -/
def stopMidRequest : List Event :=
  firstRound ++ [Event.elapse 50, Event.clickStop]

/-- The session continued: the response arrives 250 ms after the stop, and
the timer it arms fires 120 ms later on the detached video. -/
def lateResponse : List Event :=
  stopMidRequest ++
    [Event.elapse 250, Event.detectOk 3 "data:image/jpeg;base64,AAAA" (some [⟨"person"⟩]) "12:00:01",
     Event.elapse 120, Event.timeout 4 noFrame]

/-- The session continued: `Start Webcam` is pressed again, the camera plays,
the new `tick` posts a frame, and 10 ms later the timer of the first session
fires and posts another. -/
def restart : List Event :=
  lateResponse ++
    [Event.elapse 80, Event.clickStart, Event.elapse 20, Event.mediaGranted 6 liveFrame,
     Event.elapse 10, Event.playOk 6 liveFrame, Event.elapse 10, Event.timeout 5 liveFrame]

/-! ## Facts about `pushHistory` -/

theorem length_pushHistory_le (now : String) (det : List Detection)
    (h : List HistoryEntry) : (pushHistory now det h).length ≤ 25 := by
  simp [pushHistory, List.length_take]

theorem take_append_take {α : Type} (n : Nat) (a b : List α) :
    (a ++ b.take n).take n = (a ++ b).take n := by
  rw [List.take_append_eq_append_take, List.take_append_eq_append_take, List.take_take]
  congr 2
  omega

theorem recordAll_eq_take (rs : List (String × List Detection)) :
    ∀ h : List HistoryEntry, h.length ≤ 25 →
      recordAll rs h = ((rs.map (fun r => mkEntry r.1 r.2)).reverse ++ h).take 25 := by
  induction rs with
  | nil =>
    intro h hh
    simp [recordAll, List.take_of_length_le hh]
  | cons r rs ih =>
    intro h _
    have hstep : recordAll (r :: rs) h = recordAll rs (pushHistory r.1 r.2 h) := rfl
    rw [hstep, ih _ (length_pushHistory_le r.1 r.2 h), pushHistory, take_append_take]
    simp

/-- C2: recording `n` detection lists from the empty history leaves a history
of length `min n 25` that holds the entries of the last `min n 25` lists,
newest first; position `i` holds the entry of the list recorded `i` records
before the last one; after 30 records it holds records 30 down to 6. -/
theorem recordAll_keeps_newest_25 (rs : List (String × List Detection)) :
    (recordAll rs []).length = min rs.length 25 ∧
    recordAll rs [] =
      ((rs.drop (rs.length - 25)).map (fun r => mkEntry r.1 r.2)).reverse ∧
    (∀ i, i < min rs.length 25 →
      (recordAll rs [])[i]? =
        (rs[rs.length - 1 - i]?).map (fun r => mkEntry r.1 r.2)) ∧
    (rs.length = 30 →
      recordAll rs [] = ((rs.drop 5).map (fun r => mkEntry r.1 r.2)).reverse) := by
  have key : recordAll rs [] =
      ((rs.drop (rs.length - 25)).map (fun r => mkEntry r.1 r.2)).reverse := by
    rw [recordAll_eq_take rs [] (by simp), List.append_nil, List.take_reverse,
      List.length_map, List.map_drop]
  refine ⟨?_, key, ?_, ?_⟩
  · rw [key]
    simp
    omega
  · intro i hi
    rw [recordAll_eq_take rs [] (by simp), List.append_nil, List.getElem?_take]
    have h25 : i < 25 := by omega
    have hlen : i < (rs.map (fun r => mkEntry r.1 r.2)).length := by
      simp
      omega
    rw [if_pos h25, List.getElem?_reverse hlen]
    simp
  · intro h30
    rw [key, h30]

theorem recordAll_keeps_newest_25_witness :
    ((List.range 30).map (fun i => (toString i, ([] : List Detection)))).length = 30 ∧
    recordAll ((List.range 30).map (fun i => (toString i, ([] : List Detection)))) [] =
      ((((List.range 30).map (fun i => (toString i, ([] : List Detection)))).drop 5).map
        (fun r => mkEntry r.1 r.2)).reverse :=
  ⟨by simp,
   (recordAll_keeps_newest_25
      ((List.range 30).map (fun i => (toString i, ([] : List Detection))))).2.2.2
      (by simp)⟩

/-! ## Facts about the tally -/

theorem ownGet_ownSet (o : JSObject) (k k' : String) (v : JSVal) :
    ownGet (ownSet o k v) k' = if k = k' then some v else ownGet o k' := by
  induction o with
  | nil => simp [ownSet, ownGet]
  | cons p o ih =>
    obtain ⟨a, b⟩ := p
    by_cases hak : a = k
    · subst hak
      by_cases hk : a = k' <;> simp [ownSet, ownGet, hk]
    · by_cases hk : k = k'
      · subst hk
        simp [ownSet, ownGet, hak, ih]
      · by_cases hak' : a = k'
        · subst hak'
          simp [ownSet, ownGet, hak, hk]
        · simp [ownSet, ownGet, hak, hak', hk, ih]

theorem protoGet_eq_none (k : String) (hk : k ∉ protoKeys) : protoGet k = none := by
  simp only [protoKeys, List.mem_cons, not_or] at hk
  have h2 : k ∉ protoMethods := hk.2
  have h3 : k ≠ "constructor" := by
    intro h
    apply h2
    rw [h]
    decide
  simp [protoGet, hk.1, h2, h3]

theorem plusOne_orZero_asCount (n : Nat) :
    plusOne (orZero (asCount n)) = JSVal.num (n + 1) := by
  unfold asCount
  by_cases h : n = 0
  · subst h
    simp [orZero, plusOne]
  · simp [h, orZero, plusOne]

theorem ownGet_tallyStep (o : JSObject) (m : String → Nat) (d : Detection)
    (ho : ∀ k, ownGet o k = asCount (m k)) (hd : d.«class» ∉ protoKeys) (k : String) :
    ownGet (tallyStep o d) k = asCount (m k + if d.«class» = k then 1 else 0) := by
  have hp : d.«class» ≠ "__proto__" := by
    intro h
    apply hd
    simp [protoKeys, h]
  have hget : getProp o d.«class» = asCount (m d.«class») := by
    unfold getProp
    rw [ho, protoGet_eq_none _ hd]
    cases asCount (m d.«class») <;> rfl
  unfold tallyStep setProp
  rw [if_neg hp, ownGet_ownSet, hget, plusOne_orZero_asCount]
  by_cases hk : d.«class» = k
  · subst hk
    simp [asCount]
  · simp [hk, ho]

theorem ownGet_tallyFrom (det : List Detection) :
    ∀ (o : JSObject) (m : String → Nat), (∀ k, ownGet o k = asCount (m k)) →
      (∀ d ∈ det, d.«class» ∉ protoKeys) →
      ∀ k, ownGet (tallyFrom o det) k = asCount (m k + occurrences k det) := by
  induction det with
  | nil =>
    intro o m ho _ k
    simpa [tallyFrom, occurrences] using ho k
  | cons d det ih =>
    intro o m ho hdet k
    have hd : d.«class» ∉ protoKeys := hdet d (List.mem_cons_self _ _)
    have hrest : ∀ x ∈ det, x.«class» ∉ protoKeys :=
      fun x hx => hdet x (List.mem_cons_of_mem _ hx)
    have hstep := ih (tallyStep o d)
      (fun k => m k + if d.«class» = k then 1 else 0)
      (fun k => ownGet_tallyStep o m d ho hd k) hrest k
    have hfold : tallyFrom o (d :: det) = tallyFrom (tallyStep o d) det := rfl
    rw [hfold, hstep]
    congr 1
    unfold occurrences
    by_cases hk : d.«class» = k
    · simp [List.filter_cons, hk]
      omega
    · simp [List.filter_cons, hk]

/-- For detection lists whose labels avoid the names of `Object.prototype`,
the tally has exactly the labels that occur, each with its number of
occurrences, and the entry counts the detections. -/
theorem tallyOf_counts (det : List Detection) (hdet : ∀ d ∈ det, d.«class» ∉ protoKeys)
    (now : String) (k : String) :
    (mkEntry now det).count = det.length ∧
    ownGet (tallyOf det) k = asCount (occurrences k det) := by
  refine ⟨rfl, ?_⟩
  have h := ownGet_tallyFrom det [] (fun _ => 0) (fun _ => rfl) hdet k
  simpa [tallyOf] using h

/-- The list `[person, person, car]` gives count 3, the tally person 2,
car 1, and the summary listing both. -/
theorem tally_person_person_car :
    mkEntry "12:00:00" [⟨"person"⟩, ⟨"person"⟩, ⟨"car"⟩] =
      { time := "12:00:00", summary := "person:2, car:1", count := 3 } ∧
    tallyOf [⟨"person"⟩, ⟨"person"⟩, ⟨"car"⟩] =
      [("person", JSVal.num 2), ("car", JSVal.num 1)] := by
  decide

/-- C3 at the labels the claim names: one detection of class `constructor`
is tallied as a string built from the inherited function, two of class
`toString` likewise, and a detection of class `__proto__` leaves no label in
the tally at all, although each label occurs in the list. -/
theorem tally_inherited_names_not_counted :
    tallyOf [⟨"constructor"⟩] =
      [("constructor", JSVal.str "function Object() \x7b [native code] \x7d1")] ∧
    occurrences "constructor" [⟨"constructor"⟩] = 1 ∧
    getProp (tallyOf [⟨"constructor"⟩]) "constructor" ≠ some (JSVal.num 1) ∧
    tallyOf [⟨"toString"⟩, ⟨"toString"⟩] =
      [("toString", JSVal.str "function toString() \x7b [native code] \x7d11")] ∧
    (mkEntry "12:00:00" [⟨"toString"⟩, ⟨"toString"⟩]).count = 2 ∧
    tallyOf [⟨"__proto__"⟩] = [] ∧
    (mkEntry "12:00:00" [⟨"__proto__"⟩]).summary = "" := by
  decide

/-! ## One round of `tick` -/

theorem findBy_append_fresh {α : Type} (key : α → Nat) (l : List α) (a : α)
    (h : ∀ x ∈ l, key x ≠ key a) : findBy key (key a) (l ++ [a]) = some a := by
  induction l with
  | nil => simp [findBy]
  | cons x l ih =>
    have hx : key x ≠ key a := h x (List.mem_cons_self _ _)
    have hl := ih (fun y hy => h y (List.mem_cons_of_mem _ hy))
    simp [findBy, hx, hl]

theorem dropBy_append_fresh {α : Type} (key : α → Nat) (l : List α) (a : α)
    (h : ∀ x ∈ l, key x ≠ key a) : dropBy key (key a) (l ++ [a]) = l := by
  induction l with
  | nil => simp [dropBy]
  | cons x l ih =>
    have hx : key x ≠ key a := h x (List.mem_cons_self _ _)
    have hl := ih (fun y hy => h y (List.mem_cons_of_mem _ hy))
    simp [dropBy, hx, hl]

theorem tick_posts (cl : Closure) (f : Frame) (s : State) (d : String)
    (hs : cl.sending = false) (hg : grabFrameDataURL s f = some d) (hd : d ≠ "") :
    tick cl f s =
      { s with
        sending := true
        requests := s.requests ++ [{ id := s.nextId, cl := cl, body := frameBody cl d }]
        nextId := s.nextId + 1 } := by
  simp [tick, hs, hg, hd]

/-- C5: when `tick` posts a frame and the post rejects, however long it took,
the annotated image and the history are what they were before the tick, no
request is left, `sending` is false again, and one new timer of the same
`tick` is pending, due 120 ms after the rejection. In whatever later state
`s'` a rejection meets its request, it leaves the image and the history of
`s'` alone, clears `sending` and arms that timer. -/
theorem failed_round_leaves_output (s : State) (cl : Closure) (f : Frame) (d : String)
    (dt : Nat) (hs : cl.sending = false) (hg : grabFrameDataURL s f = some d)
    (hd : d ≠ "") (hfresh : ∀ q ∈ s.requests, q.id ≠ s.nextId) :
    inFlight (tick cl f s) = inFlight s + 1 ∧
    enabled (step (tick cl f s) (Event.elapse dt)) (Event.detectErr s.nextId) = true ∧
    (step (step (tick cl f s) (Event.elapse dt)) (Event.detectErr s.nextId)).annotatedSrc
      = s.annotatedSrc ∧
    (step (step (tick cl f s) (Event.elapse dt)) (Event.detectErr s.nextId)).history
      = s.history ∧
    (step (step (tick cl f s) (Event.elapse dt)) (Event.detectErr s.nextId)).requests
      = s.requests ∧
    (step (step (tick cl f s) (Event.elapse dt)) (Event.detectErr s.nextId)).sending
      = false ∧
    (step (step (tick cl f s) (Event.elapse dt)) (Event.detectErr s.nextId)).timers
      = s.timers ++ [{ id := s.nextId + 1, due := s.clock + dt + 120, cl := cl }] ∧
    (step (step (tick cl f s) (Event.elapse dt)) (Event.detectErr s.nextId)).loopRef
      = some (s.nextId + 1) ∧
    (∀ (s' : State) (r : Request), findBy Request.id r.id s'.requests = some r →
      (step s' (Event.detectErr r.id)).annotatedSrc = s'.annotatedSrc ∧
      (step s' (Event.detectErr r.id)).history = s'.history ∧
      (step s' (Event.detectErr r.id)).sending = false ∧
      (step s' (Event.detectErr r.id)).timers
        = s'.timers ++ [{ id := s'.nextId, due := s'.clock + 120, cl := r.cl }]) := by
  have hfind := findBy_append_fresh Request.id s.requests
    { id := s.nextId, cl := cl, body := frameBody cl d } hfresh
  have hdrop := dropBy_append_fresh Request.id s.requests
    { id := s.nextId, cl := cl, body := frameBody cl d } hfresh
  simp only at hfind hdrop
  rw [tick_posts cl f s d hs hg hd]
  refine ⟨?_, ?_, ?_, ?_, ?_, ?_, ?_, ?_, ?_⟩
  · simp only [inFlight, List.length_append, List.length_singleton]
  · simp only [step, enabled, hfind, Option.isSome_some]
  · simp only [step, hfind, tickRejected, setTimeout]
  · simp only [step, hfind, tickRejected, setTimeout]
  · simp only [step, hfind, hdrop, tickRejected, setTimeout]
  · simp only [step, hfind, tickRejected, setTimeout]
  · simp only [step, hfind, tickRejected, setTimeout]
  · simp only [step, hfind, tickRejected, setTimeout]
  · intro s' r hr
    simp only [step, hr, tickRejected, setTimeout, and_self]

theorem failed_round_leaves_output_witness :
    (step (step (tick (closureOf init) liveFrame init) (Event.elapse 300))
        (Event.detectErr 1)).annotatedSrc = none ∧
    (step (step (tick (closureOf init) liveFrame init) (Event.elapse 300))
        (Event.detectErr 1)).timers
      = [{ id := 2, due := 420, cl := closureOf init }] :=
  have h := failed_round_leaves_output init (closureOf init) liveFrame liveFrame.dataURL 300
    (by decide) (by decide) (by decide) (by decide)
  ⟨h.2.2.1, h.2.2.2.2.2.2.1⟩

/-- C7 as stated fails: the tick of `firstRound` starts at time 1000 and
posts a frame without arming a timer; when the post settles 500 ms later the
only timer is due at 1620, not at 1120. -/
theorem next_tick_not_due_from_tick_start :
    (runFrom strict init firstRound).map (fun s => (s.clock, inFlight s, s.timers))
      = some (1000, 1, []) ∧
    (runFrom strict init (firstRound ++ [Event.elapse 500, Event.detectErr 3])).map
        (fun s => s.timers.map Timer.due)
      = some [1620] ∧
    (1620 : Nat) ≠ 1000 + 120 := by
  decide

/-- C7 as amended: a tick that starts at `s.clock` and posts a frame arms no
timer itself; when the post settles `dt` later, with a response or with an
error, the one timer added is due at `s.clock + dt + 120`, that is 120 ms
after the settlement. -/
theorem next_tick_due_from_settlement (s : State) (cl : Closure) (f : Frame) (d : String)
    (dt : Nat) (image : String) (detections : Option (List Detection)) (now : String)
    (hs : cl.sending = false) (hg : grabFrameDataURL s f = some d)
    (hd : d ≠ "") (hfresh : ∀ q ∈ s.requests, q.id ≠ s.nextId) :
    (tick cl f s).timers = s.timers ∧
    (step (tick cl f s) (Event.elapse dt)).clock = s.clock + dt ∧
    (step (step (tick cl f s) (Event.elapse dt))
        (Event.detectOk s.nextId image detections now)).timers
      = s.timers ++ [{ id := s.nextId + 1, due := s.clock + dt + 120, cl := cl }] ∧
    (step (step (tick cl f s) (Event.elapse dt)) (Event.detectErr s.nextId)).timers
      = s.timers ++ [{ id := s.nextId + 1, due := s.clock + dt + 120, cl := cl }] := by
  have hfind := findBy_append_fresh Request.id s.requests
    { id := s.nextId, cl := cl, body := frameBody cl d } hfresh
  simp only at hfind
  rw [tick_posts cl f s d hs hg hd]
  simp only [step, hfind, tickRejected, tickResolved, setTimeout, and_self]

theorem next_tick_due_from_settlement_witness :
    (step (step (tick (closureOf init) liveFrame init) (Event.elapse 500))
        (Event.detectOk 1 "data:," none "12:00:00")).timers
      = [{ id := 2, due := 620, cl := closureOf init }] :=
  (next_tick_due_from_settlement init (closureOf init) liveFrame liveFrame.dataURL 500
    "data:," none "12:00:00" (by decide) (by decide) (by decide) (by decide)).2.2.1

theorem findBy_key {α : Type} (key : α → Nat) (id : Nat) (l : List α) (a : α)
    (h : findBy key id l = some a) : key a = id := by
  induction l with
  | nil => simp [findBy] at h
  | cons x l ih =>
    by_cases hx : key x = id
    · simp [findBy, hx] at h
      rw [← h]
      exact hx
    · simp [findBy, hx] at h
      exact ih h

theorem stop_requests (s : State) : (stop s).requests = s.requests := by
  unfold stop stopWebcam clearTimeout
  cases hl : s.loopRef <;> cases hv : s.video <;> simp
  all_goals (rename_i v; cases hsrc : v.srcObject <;> simp)

theorem stop_annotatedSrc (s : State) : (stop s).annotatedSrc = s.annotatedSrc := by
  unfold stop stopWebcam clearTimeout
  cases hl : s.loopRef <;> cases hv : s.video <;> simp
  all_goals (rename_i v; cases hsrc : v.srcObject <;> simp)

theorem stop_history (s : State) : (stop s).history = s.history := by
  unfold stop stopWebcam clearTimeout
  cases hl : s.loopRef <;> cases hv : s.video <;> simp
  all_goals (rename_i v; cases hsrc : v.srcObject <;> simp)

/-- C4 as stated fails: in `stopMidRequest` the request is still in flight
when `stop` returns, with no annotated image and an empty history; its
response then sets the image and adds a history entry. -/
theorem late_response_is_shown :
    (runFrom strict init stopMidRequest).map
        (fun s => (s.running, inFlight s, s.annotatedSrc, s.history))
      = some (false, 1, none, []) ∧
    (runFrom strict init (stopMidRequest ++
        [Event.detectOk 3 "data:image/jpeg;base64,AAAA" (some [⟨"person"⟩]) "12:00:01"])).map
        (fun s => (s.running, s.annotatedSrc, s.history))
      = some (false, some "data:image/jpeg;base64,AAAA",
          [{ time := "12:00:01", summary := "person:1", count := 1 }]) := by
  decide

/-- C4 as amended: `stop` leaves a request in flight, the image and the
history as they are; a response that arrives afterwards becomes the annotated
image and its detections are recorded at the head of the history (cut to 25),
and only a rejection leaves both as they were when `stop` returned. -/
theorem response_after_stop_is_applied (s : State) (r : Request) (image : String)
    (detections : Option (List Detection)) (now : String)
    (hr : findBy Request.id r.id s.requests = some r) :
    (stop s).running = false ∧
    enabled (stop s) (Event.detectOk r.id image detections now) = true ∧
    (step (stop s) (Event.detectOk r.id image detections now)).annotatedSrc = some image ∧
    (step (stop s) (Event.detectOk r.id image detections now)).history
      = pushHistory now (detections.getD []) s.history ∧
    (step (stop s) (Event.detectErr r.id)).annotatedSrc = s.annotatedSrc ∧
    (step (stop s) (Event.detectErr r.id)).history = s.history := by
  have hq : findBy Request.id r.id (stop s).requests = some r := by
    rw [stop_requests]
    exact hr
  have hrun : (stop s).running = false := by
    unfold stop stopWebcam clearTimeout
    cases hl : s.loopRef <;> cases hv : s.video <;> simp
    all_goals (rename_i v; cases hsrc : v.srcObject <;> simp)
  refine ⟨hrun, ?_, ?_, ?_, ?_, ?_⟩
  · simp [enabled, hq]
  · simp [step, hq, tickResolved, setTimeout]
  · simp [step, hq, tickResolved, setTimeout, stop_history]
  · simp [step, hq, tickRejected, setTimeout, stop_annotatedSrc]
  · simp [step, hq, tickRejected, setTimeout, stop_history]

theorem response_after_stop_is_applied_witness :
    (step (stop (tick (closureOf init) liveFrame init))
        (Event.detectOk 1 "data:," none "12:00:00")).annotatedSrc = some "data:," :=
  (response_after_stop_is_applied (tick (closureOf init) liveFrame init)
    { id := 1, cl := closureOf init, body := frameBody (closureOf init) liveFrame.dataURL }
    "data:," none "12:00:00" (by decide)).2.2.1

/-! ## Starting and stopping -/

/-- C8: when `getUserMedia` rejects, the suspended call of `start` ends and
nothing else changes: `running` keeps its value (false stays false), no timer
is armed, no request is posted, `sending`, the timer ref, the video element,
the image and the history are untouched. -/
theorem denied_camera_changes_nothing (s : State) (id : Nat)
    (h : enabled s (Event.mediaDenied id) = true) :
    step s (Event.mediaDenied id) = { s with starts := dropBy StartCall.id id s.starts } ∧
    (step s (Event.mediaDenied id)).running = s.running ∧
    (s.running = false → (step s (Event.mediaDenied id)).running = false) ∧
    (step s (Event.mediaDenied id)).timers = s.timers ∧
    (step s (Event.mediaDenied id)).loopRef = s.loopRef ∧
    (step s (Event.mediaDenied id)).requests = s.requests ∧
    (step s (Event.mediaDenied id)).sending = s.sending ∧
    (step s (Event.mediaDenied id)).video = s.video := by
  simp only [enabled, startIn] at h
  cases hc : findBy StartCall.id id s.starts with
  | none => simp [hc] at h
  | some c =>
    have hid : c.id = id := findBy_key StartCall.id id s.starts c hc
    simp [step, hc, startThrown, hid]

theorem denied_camera_changes_nothing_witness :
    runFrom strict init [Event.clickStart, Event.mediaDenied 1] =
      some { init with nextId := 2 } ∧
    (step (start init) (Event.mediaDenied 1)).running = false ∧
    (step (start init) (Event.mediaDenied 1)).timers = [] ∧
    (step (start init) (Event.mediaDenied 1)).requests = [] :=
  have h := denied_camera_changes_nothing (start init) 1 (by decide)
  ⟨by decide, h.2.2.1 (by decide), h.2.2.2.1, h.2.2.2.2.2.1⟩

/-- C10 on the code: in `stopMidRequest` the request is in flight when `stop`
runs, and no timer is pending after it. When the response arrives 250 ms
later, with the controller stopped and `Start Webcam` not pressed, a timer is
armed for 1420; it fires, `tick` runs on the detached video and arms the next
one for 1540. -/
theorem loop_survives_stop :
    (runFrom strict init stopMidRequest).map
        (fun s => (s.running, inFlight s, s.timers))
      = some (false, 1, []) ∧
    (runFrom strict init (stopMidRequest ++
        [Event.elapse 250,
         Event.detectOk 3 "data:image/jpeg;base64,AAAA" (some [⟨"person"⟩]) "12:00:01"])).map
        (fun s => (s.running, s.starts, s.timers.map (fun t => (t.id, t.due))))
      = some (false, [], [(4, 1420)]) ∧
    (runFrom strict init lateResponse).map
        (fun s => (s.running, s.starts, s.timers.map (fun t => (t.id, t.due))))
      = some (false, [], [(5, 1540)]) := by
  decide

/-- C1 on the code: at the end of `restart` two `/detect_frame` requests are
in flight. Request 8 was posted by the `tick` of the second `start`, request 9
by the timer that the first session left behind; each `tick` read `sending`
as false, the value of the render that created it, while the state variable
was already true. -/
theorem two_requests_in_flight :
    (runFrom strict init restart).map
        (fun s => (inFlight s, s.requests.map (fun r => (r.id, r.cl.sending)), s.sending))
      = some (2, [(8, false), (9, false)], true) := by
  decide

/-! ## Rounds without a frame -/

theorem mem_of_mem_dropBy {α : Type} (key : α → Nat) (id : Nat) (l : List α) (x : α)
    (h : x ∈ dropBy key id l) : x ∈ l := by
  induction l with
  | nil => simp [dropBy] at h
  | cons a l ih =>
    by_cases ha : key a = id
    · simp [dropBy, ha] at h
      exact List.mem_cons_of_mem _ h
    · simp [dropBy, ha] at h
      rcases h with h | h
      · rw [h]
        exact List.mem_cons_self _ _
      · exact List.mem_cons_of_mem _ (ih h)

theorem tick_without_frame (cl : Closure) (f : Frame) (s : State)
    (h : grabFrameDataURL s f = none) : tick cl f s = setTimeout cl s := by
  cases hs : cl.sending <;> simp [tick, hs, h]

theorem idle_round (s : State) (t : Timer) (f : Frame)
    (hfind : findBy Timer.id t.id s.timers = some t) (hdue : t.due ≤ s.clock + 120)
    (hnull : grabFrameDataURL s f = none) :
    enabled (step s (Event.elapse 120)) (Event.timeout t.id f) = true ∧
    step (step s (Event.elapse 120)) (Event.timeout t.id f) =
      { s with
        clock := s.clock + 120
        loopRef := some s.nextId
        timers := dropBy Timer.id t.id s.timers ++
          [{ id := s.nextId, due := s.clock + 120 + 120, cl := t.cl }]
        nextId := s.nextId + 1 } := by
  constructor
  · simp [step, enabled, hfind, hdue]
  · have hg : grabFrameDataURL
        { s with clock := s.clock + 120, timers := dropBy Timer.id t.id s.timers } f = none :=
      hnull
    simp only [step, hfind]
    rw [tick_without_frame _ _ _ hg]
    rfl

theorem idle_rounds (fs : List Frame) :
    ∀ (s : State) (t : Timer), fs ≠ [] →
      findBy Timer.id t.id s.timers = some t → t.due ≤ s.clock + 120 →
      (∀ x ∈ s.timers, x.id < s.nextId) →
      (∀ f ∈ fs, grabFrameDataURL s f = none) →
      ∃ s', runFrom enabled s (roundEvents t.id s.nextId fs) = some s' ∧
        s'.requests = s.requests ∧ s'.annotatedSrc = s.annotatedSrc ∧
        s'.history = s.history ∧ s'.sending = s.sending ∧
        s'.clock = s.clock + 120 * fs.length ∧
        s'.nextId = s.nextId + fs.length ∧
        s'.timers = dropBy Timer.id t.id s.timers ++
          [{ id := s.nextId + fs.length - 1, due := s.clock + 120 * fs.length + 120,
             cl := t.cl }] := by
  induction fs with
  | nil => intro s t h; exact absurd rfl h
  | cons f fs ih =>
    intro s t _ hfind hdue hfresh hnull
    obtain ⟨hen, hstep⟩ := idle_round s t f hfind hdue (hnull f (List.mem_cons_self _ _))
    have hrun : runFrom enabled s (roundEvents t.id s.nextId (f :: fs)) =
        runFrom enabled (step (step s (Event.elapse 120)) (Event.timeout t.id f))
          (roundEvents s.nextId (s.nextId + 1) fs) := by
      simp only [roundEvents, runFrom, hen, if_true]
      simp [enabled]
    rw [hrun, hstep]
    by_cases hfs : fs = []
    · subst hfs
      refine ⟨_, rfl, rfl, rfl, rfl, rfl, ?_, ?_, ?_⟩
      · simp
      · simp
      · simp
    · have hne : ∀ x ∈ dropBy Timer.id t.id s.timers,
          x.id ≠ (⟨s.nextId, s.clock + 120 + 120, t.cl⟩ : Timer).id := by
        intro x hx
        have := hfresh x (mem_of_mem_dropBy _ _ _ _ hx)
        simp only
        omega
      have hfind1 := findBy_append_fresh Timer.id (dropBy Timer.id t.id s.timers)
        ⟨s.nextId, s.clock + 120 + 120, t.cl⟩ hne
      have hdrop1 := dropBy_append_fresh Timer.id (dropBy Timer.id t.id s.timers)
        ⟨s.nextId, s.clock + 120 + 120, t.cl⟩ hne
      have hfresh1 : ∀ x ∈ dropBy Timer.id t.id s.timers ++
          [(⟨s.nextId, s.clock + 120 + 120, t.cl⟩ : Timer)], x.id < s.nextId + 1 := by
        intro x hx
        rcases List.mem_append.mp hx with hx | hx
        · have := hfresh x (mem_of_mem_dropBy _ _ _ _ hx)
          omega
        · simp only [List.mem_singleton] at hx
          rw [hx]
          simp
      obtain ⟨s', h1, h2, h3, h4, h5, h6, h7, h8⟩ := ih
        { s with
          clock := s.clock + 120
          loopRef := some s.nextId
          timers := dropBy Timer.id t.id s.timers ++
            [{ id := s.nextId, due := s.clock + 120 + 120, cl := t.cl }]
          nextId := s.nextId + 1 }
        ⟨s.nextId, s.clock + 120 + 120, t.cl⟩ hfs hfind1 (Nat.le_refl _) hfresh1
        (fun g hg => hnull g (List.mem_cons_of_mem _ hg))
      refine ⟨s', h1, h2, h3, h4, h5, ?_, ?_, ?_⟩
      · rw [h6]
        simp only [List.length_cons]
        omega
      · rw [h7]
        simp only [List.length_cons]
        omega
      · rw [h8]
        simp only at hdrop1
        simp only [hdrop1, List.length_cons]
        have hpos : 0 < fs.length := List.length_pos.mpr hfs
        have e1 : s.nextId + 1 + fs.length - 1 = s.nextId + (fs.length + 1) - 1 := by omega
        have e2 : s.clock + 120 + 120 * fs.length + 120 =
            s.clock + 120 * (fs.length + 1) + 120 := by omega
        rw [e1, e2]

/-- C9: let a timer of `tick` be pending and due within 120 ms, and let
`grabFrameDataURL` return null for each of the frames `fs`. Then for every
`n` from 1 to the number of frames, the first `n` rounds (120 ms pass, the
chain's timer fires) can all be taken and leave the requests, the annotated
image, the history and `sending` as they were; the timer that fired is gone
and exactly one timer of the same `tick` has been added, armed by the `n`-th
tick for 120 ms after it ran. -/
theorem null_frames_only_rearm (s : State) (t : Timer) (fs : List Frame) (n : Nat)
    (hn : 0 < n) (hle : n ≤ fs.length)
    (hfind : findBy Timer.id t.id s.timers = some t) (hdue : t.due ≤ s.clock + 120)
    (hfresh : ∀ x ∈ s.timers, x.id < s.nextId)
    (hnull : ∀ f ∈ fs, grabFrameDataURL s f = none) :
    ∃ s', runFrom enabled s (roundEvents t.id s.nextId (fs.take n)) = some s' ∧
      s'.requests = s.requests ∧ s'.annotatedSrc = s.annotatedSrc ∧
      s'.history = s.history ∧ s'.sending = s.sending ∧
      s'.clock = s.clock + 120 * n ∧
      s'.timers = dropBy Timer.id t.id s.timers ++
        [{ id := s.nextId + n - 1, due := s.clock + 120 * n + 120, cl := t.cl }] := by
  have hlen : (fs.take n).length = n := by
    rw [List.length_take]
    omega
  have hne : fs.take n ≠ [] := by
    intro h
    rw [h] at hlen
    simp at hlen
    omega
  obtain ⟨s', h1, h2, h3, h4, h5, h6, _, h8⟩ := idle_rounds (fs.take n) s t hne hfind hdue
    hfresh (fun f hf => hnull f (List.mem_of_mem_take hf))
  rw [hlen] at h6 h8
  exact ⟨s', h1, h2, h3, h4, h5, h6, h8⟩

theorem null_frames_only_rearm_witness :
    ∃ s', runFrom enabled (setTimeout (closureOf init) init)
        (roundEvents 1 2 ([noFrame, ⟨1, ""⟩, noFrame].take 3)) = some s' ∧
      s'.requests = [] ∧ s'.annotatedSrc = none ∧ s'.history = [] ∧ s'.sending = false ∧
      s'.clock = 0 + 120 * 3 ∧
      s'.timers = [] ++ [{ id := 2 + 3 - 1, due := 0 + 120 * 3 + 120, cl := closureOf init }] :=
  null_frames_only_rearm (setTimeout (closureOf init) init) ⟨1, 120, closureOf init⟩
    [noFrame, ⟨1, ""⟩, noFrame] 3 (by decide) (by decide) (by decide) (by decide)
    (by decide) (by decide)

/-! ## The camera and the running flag -/

theorem tick_video (cl : Closure) (f : Frame) (s : State) : (tick cl f s).video = s.video := by
  unfold tick setTimeout
  split
  · rfl
  · split
    · rfl
    · split <;> rfl

theorem tick_starts (cl : Closure) (f : Frame) (s : State) :
    (tick cl f s).starts = s.starts := by
  unfold tick setTimeout
  split
  · rfl
  · split
    · rfl
    · split <;> rfl

theorem tick_running (cl : Closure) (f : Frame) (s : State) :
    (tick cl f s).running = s.running := by
  unfold tick setTimeout
  split
  · rfl
  · split
    · rfl
    · split <;> rfl

theorem Tidy.of_eq {s s' : State} (h : Tidy s) (hv : s'.video = s.video)
    (hs : s'.starts = s.starts) (hr : s'.running = s.running) : Tidy s' := by
  have ha : attachedStream s' = attachedStream s := by
    unfold attachedStream
    rw [hv]
  have hp : awaitingPlay s' ↔ awaitingPlay s := by
    unfold awaitingPlay
    rw [hs]
  exact
    { video := by rw [hv]; exact h.video
      one := by rw [hs]; exact h.one
      idle := by rw [hs, hr]; exact h.idle
      cam := by rw [ha, hr, hp]; exact h.cam }

theorem findBy_short {α : Type} (key : α → Nat) (id : Nat) (l : List α) (a : α)
    (h : findBy key id l = some a) (hl : l.length ≤ 1) : l = [a] := by
  match l, h, hl with
  | [], h, _ => simp [findBy] at h
  | [x], h, _ =>
    by_cases hx : key x = id
    · simp [findBy, hx] at h
      rw [h]
    · simp [findBy, hx] at h
  | _ :: _ :: _, _, hl => simp at hl

theorem tidy_init : Tidy init :=
  { video := rfl
    one := by decide
    idle := by decide
    cam := by
      constructor
      · intro h
        exact absurd h (by decide)
      · intro h
        rcases h with h | ⟨c, hc, _⟩
        · exact absurd h (by decide)
        · simp [init] at hc }

theorem stop_starts (s : State) : (stop s).starts = s.starts := by
  unfold stop stopWebcam clearTimeout
  cases hl : s.loopRef <;> cases hv : s.video <;> simp
  all_goals (rename_i v; cases hsrc : v.srcObject <;> simp)

theorem stop_running (s : State) : (stop s).running = false := by
  unfold stop stopWebcam clearTimeout
  cases hl : s.loopRef <;> cases hv : s.video <;> simp
  all_goals (rename_i v; cases hsrc : v.srcObject <;> simp)

theorem stop_video_isSome (s : State) : (stop s).video.isSome = s.video.isSome := by
  unfold stop stopWebcam clearTimeout
  cases hl : s.loopRef <;> cases hv : s.video <;> simp
  all_goals (rename_i v; cases hsrc : v.srcObject <;> simp [hv])

theorem stop_detaches (s : State) : attachedStream (stop s) = none := by
  unfold attachedStream stop stopWebcam clearTimeout
  cases hl : s.loopRef <;> cases hv : s.video <;> simp
  all_goals (rename_i v; cases hsrc : v.srcObject <;> simp [hv, hsrc])

theorem startIn_found (s : State) (id : Nat) (ph : Phase) (h : startIn s id ph = true) :
    ∃ c, findBy StartCall.id id s.starts = some c ∧ c.phase = ph := by
  unfold startIn at h
  cases hc : findBy StartCall.id id s.starts with
  | none => simp [hc] at h
  | some c =>
    refine ⟨c, rfl, ?_⟩
    simpa [hc] using h

theorem tidy_step (s : State) (e : Event) (h : Tidy s) (he : orderly s e = true) :
    Tidy (step s e) := by
  simp only [orderly, Bool.and_eq_true] at he
  obtain ⟨⟨⟨hen, hshown⟩, hpat⟩, hplay⟩ := he
  cases e with
  | elapse dt => exact h.of_eq rfl rfl rfl
  | setThreshold v => exact h.of_eq rfl rfl rfl
  | clickClass cls => exact h.of_eq rfl rfl rfl
  | fileChange file => cases file <;> exact h.of_eq rfl rfl rfl
  | uploadOk id image detections now => exact h.of_eq rfl rfl rfl
  | uploadErr id => exact h.of_eq rfl rfl rfl
  | timeout id f =>
    simp only [step]
    cases hf : findBy Timer.id id s.timers with
    | none => exact h
    | some t =>
      exact h.of_eq (by rw [tick_video]) (by rw [tick_starts]) (by rw [tick_running])
  | detectOk id image detections now =>
    simp only [step]
    cases hf : findBy Request.id id s.requests with
    | none => exact h
    | some r => exact h.of_eq rfl rfl rfl
  | detectErr id =>
    simp only [step]
    cases hf : findBy Request.id id s.requests with
    | none => exact h
    | some r => exact h.of_eq rfl rfl rfl
  | playFail id => simp [playSucceeds] at hplay
  | clickStart =>
    have hrun : s.running = false := by simpa [shown] using hshown
    have hst : s.starts = [] := by simpa [patient] using hpat
    have hcam : ¬ (attachedStream s).isSome = true := by
      intro hc
      rcases h.cam.mp hc with h1 | ⟨c, hc, _⟩
      · rw [hrun] at h1
        exact absurd h1 (by decide)
      · rw [hst] at hc
        simp at hc
    exact
      { video := h.video
        one := by simp [step, start, hst]
        idle := by
          intro hr
          simp [step, start, hrun] at hr
        cam := by
          constructor
          · intro hc
            exact absurd hc hcam
          · intro hc
            rcases hc with h1 | ⟨c, hc, hph⟩
            · simp [step, start, hrun] at h1
            · simp [step, start, hst] at hc
              rw [hc] at hph
              simp at hph }
  | mediaGranted id f =>
    obtain ⟨c, hc, hph⟩ := startIn_found s id Phase.acquiring (by simpa [enabled] using hen)
    have hst : s.starts = [c] := findBy_short _ _ _ _ hc h.one
    have hrun : s.running = false := by
      cases hr : s.running with
      | false => rfl
      | true =>
        have := h.idle hr
        rw [hst] at this
        simp at this
    obtain ⟨v, hv⟩ := Option.isSome_iff_exists.mp h.video
    have hdrop : dropBy StartCall.id c.id s.starts = [] := by simp [hst, dropBy]
    have hstep : step s (Event.mediaGranted id f) =
        { s with
          liveStreams := s.liveStreams ++ [s.nextId]
          video := some { srcObject := some s.nextId }
          starts := [{ c with phase := Phase.playing }]
          nextId := s.nextId + 1 } := by
      simp only [step, hc, startGranted, hv, hdrop, List.nil_append]
    rw [hstep]
    exact
      { video := rfl
        one := by simp
        idle := by
          intro hr
          simp [hrun] at hr
        cam := by
          constructor
          · intro _
            exact Or.inr ⟨{ c with phase := Phase.playing }, List.mem_singleton.mpr rfl, rfl⟩
          · intro _
            rfl }
  | mediaDenied id =>
    obtain ⟨c, hc, hph⟩ := startIn_found s id Phase.acquiring (by simpa [enabled] using hen)
    have hst : s.starts = [c] := findBy_short _ _ _ _ hc h.one
    have hrun : s.running = false := by
      cases hr : s.running with
      | false => rfl
      | true =>
        have := h.idle hr
        rw [hst] at this
        simp at this
    have hdrop : dropBy StartCall.id c.id s.starts = [] := by simp [hst, dropBy]
    have hcam : ¬ (attachedStream s).isSome = true := by
      intro hx
      rcases h.cam.mp hx with h1 | ⟨c', hc', hph'⟩
      · rw [hrun] at h1
        exact absurd h1 (by decide)
      · rw [hst] at hc'
        simp at hc'
        rw [hc', hph] at hph'
        exact absurd hph' (by decide)
    have hstep : step s (Event.mediaDenied id) = { s with starts := [] } := by
      simp only [step, hc, startThrown, hdrop]
    rw [hstep]
    exact
      { video := h.video
        one := by simp
        idle := fun _ => rfl
        cam := by
          constructor
          · intro hx
            exact absurd hx hcam
          · intro hx
            rcases hx with h1 | ⟨c', hc', _⟩
            · rw [hrun] at h1
              exact absurd h1 (by decide)
            · simp at hc' }
  | playOk id f =>
    obtain ⟨c, hc, hph⟩ := startIn_found s id Phase.playing (by simpa [enabled] using hen)
    have hst : s.starts = [c] := findBy_short _ _ _ _ hc h.one
    have hdrop : dropBy StartCall.id c.id s.starts = [] := by simp [hst, dropBy]
    have hatt : (attachedStream s).isSome = true :=
      h.cam.mpr (Or.inr ⟨c, by rw [hst]; exact List.mem_singleton.mpr rfl, hph⟩)
    have h0 : Tidy { s with starts := dropBy StartCall.id c.id s.starts, running := true } :=
      { video := h.video
        one := by simp [hdrop]
        idle := fun _ => hdrop
        cam := by
          constructor
          · intro _
            exact Or.inl rfl
          · intro _
            exact hatt }
    simp only [step, hc, startTail]
    exact h0.of_eq (by rw [tick_video]) (by rw [tick_starts]) (by rw [tick_running])
  | clickStop =>
    have hrun : s.running = true := by simpa [shown] using hshown
    have hst : s.starts = [] := h.idle hrun
    exact
      { video := by
          simp only [step]
          rw [stop_video_isSome]
          exact h.video
        one := by
          simp only [step]
          rw [stop_starts, hst]
          simp
        idle := by
          intro _
          simp only [step]
          rw [stop_starts, hst]
        cam := by
          simp only [step]
          rw [stop_detaches, stop_running]
          constructor
          · intro hx
            simp at hx
          · intro hx
            rcases hx with h1 | ⟨c', hc', _⟩
            · exact absurd h1 (by decide)
            · rw [stop_starts, hst] at hc'
              simp at hc' }

theorem tidy_run (evs : List Event) :
    ∀ s : State, Tidy s → ∀ s', runFrom orderly s evs = some s' → Tidy s' := by
  induction evs with
  | nil =>
    intro s h s' hr
    simp only [runFrom, Option.some.injEq] at hr
    rw [← hr]
    exact h
  | cons e evs ih =>
    intro s h s' hr
    by_cases he : orderly s e = true
    · simp only [runFrom, he, if_true] at hr
      exact ih (step s e) (tidy_step s e h he) s' hr
    · simp [runFrom, he] at hr

/-- C6 as stated fails: once `getUserMedia` has resolved, the stream is
attached to the video element while `start` still awaits `play()`, and
`running` is false. -/
theorem stream_attached_before_running :
    (runFrom strict init [Event.clickStart, Event.elapse 800, Event.mediaGranted 1 liveFrame]).map
        (fun s => (attachedStream s, s.running, s.starts.map (fun c => c.phase)))
      = some (some 2, false, [Phase.playing]) := by
  decide

/-- C6 as amended: in every state of an orderly session (only the shown
button is pressed, `Start Webcam` not again while a call of `start` is
suspended, camera acquisition succeeds or fails, playback succeeds), the
stream is attached to the video element exactly when `running` is true or a
call of `start` awaits `play()`. -/
theorem stream_attached_iff_running_or_awaiting_play (evs : List Event) (s : State)
    (h : runFrom orderly init evs = some s) :
    (attachedStream s).isSome = true ↔ (s.running = true ∨ awaitingPlay s) :=
  (tidy_run evs init tidy_init s h).cam

theorem stream_attached_iff_running_or_awaiting_play_witness :
    (attachedStream ((runFrom orderly init stopMidRequest).get (by decide))).isSome = true ↔
      (((runFrom orderly init stopMidRequest).get (by decide)).running = true ∨
        awaitingPlay ((runFrom orderly init stopMidRequest).get (by decide))) :=
  stream_attached_iff_running_or_awaiting_play stopMidRequest
    ((runFrom orderly init stopMidRequest).get (by decide)) (Option.some_get _).symm

/-- When `play()` rejects, `start` ends with the stream still attached and
`running` false, and no call of `start` is left that could change it. -/
theorem failed_playback_leaves_stream :
    (runFrom strict init
        [Event.clickStart, Event.elapse 800, Event.mediaGranted 1 liveFrame,
         Event.elapse 200, Event.playFail 1]).map
        (fun s => (attachedStream s, s.liveStreams, s.running, s.starts))
      = some (some 2, [2], false, []) := by
  decide

end App
